import Mathlib

/-!
Shallow embedding of the address-book program (`address_book.py`) and proofs
about the claims of its specification.

Modelling conventions:
- Python `str` is Lean `String`; character-level reasoning uses `String.data`.
- A raised `ValueError` is modelled by `Except`/`Option PyError`; the two
  error families of the spec (`ValidationError`, `NotFoundError`) are the
  `ValueError`s with the corresponding messages from the source.
- `datetime.date` is modelled by a `year`/`month`/`day` triple of naturals
  with the proleptic-Gregorian helper functions that CPython's `datetime`
  uses (`toordinal`, `weekday`, day-in-month tables).
- Mutating methods are embedded in state-passing style: they return the new
  object state, paired with `Option PyError` when the method can raise.
-/

set_option autoImplicit false

namespace AB

/-- A Python exception as observed by callers: `ValueError` with a message.
Both validation failures and the not-found failure in the source are
`ValueError`s distinguished by their message. -/
inductive PyError where
  | valueError (msg : String)
deriving DecidableEq

/-- Proleptic Gregorian calendar date, as CPython's `datetime.date` triple. -/
structure Date where
  year : Nat
  month : Nat
  day : Nat
deriving DecidableEq

/-- CPython `datetime`: a year is a leap year iff divisible by 4 and not by
100 unless also by 400. -/
def isLeap (y : Nat) : Bool :=
  y % 4 == 0 && (y % 100 != 0 || y % 400 == 0)

/-- Number of days in month `m` of year `y` (CPython `_days_in_month`). -/
def daysInMonth (y m : Nat) : Nat :=
  if m = 2 then (if isLeap y then 29 else 28)
  else if m = 4 ∨ m = 6 ∨ m = 9 ∨ m = 11 then 30 else 31

/-- `y`/`m`/`d` denotes a real calendar date accepted by `datetime.date`. -/
def validDate (y m d : Nat) : Prop :=
  1 ≤ y ∧ y ≤ 9999 ∧ 1 ≤ m ∧ m ≤ 12 ∧ 1 ≤ d ∧ d ≤ daysInMonth y m

instance (y m d : Nat) : Decidable (validDate y m d) := by
  unfold validDate; infer_instance

/-- Days before January 1 of year `y` (CPython `_days_before_year`). -/
def daysBeforeYear (y : Nat) : Nat :=
  365 * (y - 1) + (y - 1) / 4 - (y - 1) / 100 + (y - 1) / 400

/-- Days in year `y` strictly before month `m` (CPython `_days_before_month`). -/
def daysBeforeMonth (y m : Nat) : Nat :=
  [0, 31, 59, 90, 120, 151, 181, 212, 243, 273, 304, 334].getD (m - 1) 0 +
    (if 2 < m ∧ isLeap y then 1 else 0)

/-- `date.toordinal`: day number with 0001-01-01 as day 1. -/
def Date.toordinal (d : Date) : Nat :=
  daysBeforeYear d.year + daysBeforeMonth d.year d.month + d.day

/-- `date.weekday`: Monday = 0, ..., Sunday = 6. -/
def Date.weekday (d : Date) : Nat :=
  (d.toordinal + 6) % 7

/-- Python's `<` on dates: lexicographic on (year, month, day). -/
def Date.blt (a b : Date) : Bool :=
  decide (a.year < b.year) ||
    (a.year == b.year &&
      (decide (a.month < b.month) || (a.month == b.month && decide (a.day < b.day))))

/-- Python's `<=` on dates: lexicographic on (year, month, day). -/
def Date.ble (a b : Date) : Bool :=
  decide (a.year < b.year) ||
    (a.year == b.year &&
      (decide (a.month < b.month) || (a.month == b.month && decide (a.day ≤ b.day))))

/-- The day after `d` (valid-date rollover of day, month, year). -/
def Date.succ (d : Date) : Date :=
  if d.day < daysInMonth d.year d.month then ⟨d.year, d.month, d.day + 1⟩
  else if d.month < 12 then ⟨d.year, d.month + 1, 1⟩
  else ⟨d.year + 1, 1, 1⟩

/-- `d + timedelta(days = n)` for a valid date `d` and `n ≥ 0`. -/
def Date.addDays (d : Date) (n : Nat) : Date :=
  Nat.repeat Date.succ n d

/-- `date.replace(year := y)`: fails (ValueError) when the resulting
year/month/day triple is not a real date, e.g. Feb 29 in a non-leap year or
a year outside 1..9999. -/
def Date.replaceYear (d : Date) (y : Nat) : Option Date :=
  if (1 ≤ y && y ≤ 9999) && d.day ≤ daysInMonth y d.month then
    some ⟨y, d.month, d.day⟩
  else none

/-- The character for the decimal digit `n < 10`. -/
def digitChar (n : Nat) : Char := Char.ofNat (48 + n)

/-- Zero-padded two-digit rendering of `n ≤ 99`, as `strftime` width-2 fields. -/
def pad2 (n : Nat) : List Char := [digitChar (n / 10), digitChar (n % 10)]

/-- Zero-padded four-digit rendering of `n ≤ 9999`, as `strftime` `%Y`. -/
def pad4 (n : Nat) : List Char :=
  [digitChar (n / 1000), digitChar (n / 100 % 10), digitChar (n / 10 % 10), digitChar (n % 10)]

/-- `d.strftime("%d.%m.%Y")`. -/
def formatDMY (d : Date) : String :=
  String.mk (pad2 d.day ++ '.' :: (pad2 d.month ++ '.' :: pad4 d.year))

/-- The longest prefix of decimal-digit characters, and the rest. A `%d`,
`%m` or `%Y` field of `strptime` must consume the whole digit run in front
of the following literal, so field matching reduces to splitting digit runs. -/
def splitDigits : List Char → List Char × List Char
  | [] => ([], [])
  | c :: cs =>
    if c.isDigit then
      let r := splitDigits cs
      (c :: r.1, r.2)
    else ([], c :: cs)

/-- Numeric value of a string of digit characters (most significant first). -/
def digitsVal (cs : List Char) : Nat :=
  cs.foldl (fun acc c => 10 * acc + (c.toNat - 48)) 0

/-- `datetime.strptime(s, "%d.%m.%Y").date()`: `%d` is a 1-2 digit value in
1..31, `%m` a 1-2 digit value in 1..12, `%Y` exactly 4 digits; the separating
dots are literal; the whole string must be consumed; the resulting triple
must be a real `datetime.date` (year at least 1). Returns `none` where the
source raises `ValueError`. -/
def parseDMY (cs : List Char) : Option Date :=
  let p1 := splitDigits cs
  match p1.2 with
  | '.' :: r1 =>
    let p2 := splitDigits r1
    match p2.2 with
    | '.' :: r2 =>
      let p3 := splitDigits r2
      match p3.2 with
      | [] =>
        let d := digitsVal p1.1
        let m := digitsVal p2.1
        let y := digitsVal p3.1
        if ((1 ≤ p1.1.length && p1.1.length ≤ 2) && (1 ≤ d && d ≤ 31)) &&
            ((1 ≤ p2.1.length && p2.1.length ≤ 2) && (1 ≤ m && m ≤ 12)) &&
            (p3.1.length == 4) && (1 ≤ y) && (d ≤ daysInMonth y m) then
          some ⟨y, m, d⟩
        else none
      | _ => none
    | _ => none
  | _ => none

/-- `class Name(Field)`: stores the value; performs no validation. -/
structure Name where
  value : String
deriving DecidableEq

/-- `Name(value)`: the source's `Name` class adds no check to `Field`. -/
def Name.init (value : String) : Name := ⟨value⟩

/-- `class Phone(Field)`: stores a validated value. -/
structure Phone where
  value : String
deriving DecidableEq

/-- `Phone(value)`: requires `value.isdigit() and len(value) == 10`, else
raises `ValueError("Phone number must contain exactly 10 digits.")`. -/
def Phone.init (value : String) : Except PyError Phone :=
  if (!value.data.isEmpty && value.data.all Char.isDigit) && value.data.length == 10 then
    .ok ⟨value⟩
  else .error (.valueError "Phone number must contain exactly 10 digits.")

/-- `class Birthday(Field)`: stores the original textual value. -/
structure Birthday where
  value : String
deriving DecidableEq

/-- `Birthday(value)`: must parse with `strptime(value, "%d.%m.%Y")`, else
raises `ValueError("Invalid date format. Please use DD.MM.YYYY")`; stores
the original string unchanged. -/
def Birthday.init (value : String) : Except PyError Birthday :=
  match parseDMY value.data with
  | some _ => .ok ⟨value⟩
  | none => .error (.valueError "Invalid date format. Please use DD.MM.YYYY")

/-- `Birthday.to_date`: re-parses the stored string. For any `Birthday`
built by `Birthday.init` the parse succeeds; the `⟨1, 1, 1⟩` branch is
unreachable for such values. -/
def Birthday.to_date (b : Birthday) : Date :=
  match parseDMY b.value.data with
  | some d => d
  | none => ⟨1, 1, 1⟩

/-- `class Record`: a contact with a name, a phone list and an optional
birthday. -/
structure Record where
  name : Name
  phones : List Phone
  birthday : Option Birthday
deriving DecidableEq

/-- `Record(name)`: builds `Name(name)` (no validation), empty phone list,
no birthday. -/
def Record.init (name : String) : Record :=
  ⟨Name.init name, [], none⟩

/-- `Record.find_phone`: first phone whose value equals `phone`. -/
def Record.find_phone (r : Record) (phone : String) : Option Phone :=
  r.phones.find? (fun p => p.value == phone)

/-- `Record.add_phone`: appends `Phone(phone)`; on validation failure the
record is unchanged and the error is reported. -/
def Record.add_phone (r : Record) (phone : String) : Record × Option PyError :=
  match Phone.init phone with
  | .error e => (r, some e)
  | .ok p => ({ r with phones := r.phones ++ [p] }, none)

/-- Removal of the first phone with the given value (`list.remove` applied
to the result of `find_phone` when present). -/
def removeFirstPhone : List Phone → String → List Phone
  | [], _ => []
  | p :: ps, s => if p.value == s then ps else p :: removeFirstPhone ps s

/-- `Record.remove_phone`: removes the first phone equal to `phone` when
present; otherwise does nothing. -/
def Record.remove_phone (r : Record) (phone : String) : Record :=
  { r with phones := removeFirstPhone r.phones phone }

/-- `Record.edit_phone`: raises
`ValueError("Old phone number not found.")` when `old_phone` is absent;
otherwise builds `Phone(new_phone)` (propagating its validation error with
the record unchanged) and assigns it at the index of the found phone, which
is the index of the first value match. -/
def Record.edit_phone (r : Record) (old_phone new_phone : String) : Record × Option PyError :=
  match Record.find_phone r old_phone with
  | none => (r, some (.valueError "Old phone number not found."))
  | some _ =>
    match Phone.init new_phone with
    | .error e => (r, some e)
    | .ok p =>
      ({ r with phones := r.phones.set (r.phones.findIdx (fun q => q.value == old_phone)) p },
        none)

/-- `Record.add_birthday`: sets `Birthday(birthday)`, propagating its
validation error with the record unchanged. -/
def Record.add_birthday (r : Record) (birthday : String) : Record × Option PyError :=
  match Birthday.init birthday with
  | .error e => (r, some e)
  | .ok b => ({ r with birthday := some b }, none)

/-- `class AddressBook(UserDict)`: an insertion-ordered mapping from name to
record, modelled as an association list without duplicate keys. -/
structure AddressBook where
  data : List (String × Record)
deriving DecidableEq

/-- Insert-or-overwrite preserving the position of an existing key
(Python `dict` assignment). -/
def setKey : List (String × Record) → String → Record → List (String × Record)
  | [], n, r => [(n, r)]
  | (k, v) :: rest, n, r => if k == n then (n, r) :: rest else (k, v) :: setKey rest n r

/-- `AddressBook.add_record`: `self.data[record.name.value] = record`. -/
def AddressBook.add_record (book : AddressBook) (record : Record) : AddressBook :=
  ⟨setKey book.data record.name.value record⟩

/-- `AddressBook.find`: `self.data.get(name)`. -/
def AddressBook.find (book : AddressBook) (name : String) : Option Record :=
  (book.data.find? (fun kv => kv.1 == name)).map (fun kv => kv.2)

/-- `AddressBook.delete`: `self.data.pop(name, None)`. -/
def AddressBook.delete (book : AddressBook) (name : String) : AddressBook :=
  ⟨book.data.filter (fun kv => kv.1 != name)⟩

/-- `AddressBook._move_to_monday_if_weekend`: Saturday shifts by 2 days,
Sunday by 1 day. -/
def moveToMondayIfWeekend (d : Date) : Date :=
  if d.weekday == 5 then d.addDays 2
  else if d.weekday == 6 then d.addDays 1
  else d

/-- `AddressBook._get_congrats_date`: `none` when the record has no birthday,
when reprojecting the birthday onto `today.year` raises, or when the
this-year candidate precedes `today` and reprojecting onto `today.year + 1`
raises; otherwise the weekend-shifted reprojected date. -/
def get_congrats_date (record : Record) (today : Date) : Option Date :=
  match record.birthday with
  | none => none
  | some bd =>
    let bday := bd.to_date
    match bday.replaceYear today.year with
    | none => none
    | some bdayThisYear =>
      if bdayThisYear.blt today then
        match bday.replaceYear (today.year + 1) with
        | none => none
        | some bdayNextYear => some (moveToMondayIfWeekend bdayNextYear)
      else some (moveToMondayIfWeekend bdayThisYear)

/-- One output entry of `get_upcoming_birthdays`: the dict
with keys "name" and "birthday". -/
structure Entry where
  name : String
  birthday : String
deriving DecidableEq

/-- `AddressBook.get_upcoming_birthdays` as a function of the book and of
the value the method reads from `date.today()` (the ambient clock): the
method takes no `today` parameter, so the clock reading is an explicit
argument of the embedding. -/
def get_upcoming_birthdays (book : AddressBook) (todayClock : Date) : List Entry :=
  (book.data.map Prod.snd).filterMap fun record =>
    match get_congrats_date record todayClock with
    | none => none
    | some congrats =>
      if Date.ble todayClock congrats && Date.ble congrats (todayClock.addDays 7) then
        some ⟨record.name.value, formatDMY congrats⟩
      else none

/-- The loop of `get_upcoming_birthdays` in state-passing style: the book
state is threaded through every iteration, each of which only reads it. -/
def gubLoop (today endDay : Date) :
    AddressBook → List (String × Record) → List Entry → AddressBook × List Entry
  | book, [], acc => (book, acc)
  | book, item :: rest, acc =>
    match get_congrats_date item.2 today with
    | none => gubLoop today endDay book rest acc
    | some congrats =>
      if Date.ble today congrats && Date.ble congrats endDay then
        gubLoop today endDay book rest (acc ++ [⟨item.2.name.value, formatDMY congrats⟩])
      else gubLoop today endDay book rest acc

/-- `AddressBook.get_upcoming_birthdays` with the method's state made
explicit: returns the book state after the call together with the result. -/
def get_upcoming_birthdays_run (book : AddressBook) (todayClock : Date) :
    AddressBook × List Entry :=
  gubLoop todayClock (todayClock.addDays 7) book book.data []

/-- The invariant the `Phone` constructor enforces: the stored value is a
string of exactly 10 digit characters. -/
def validPhone (p : Phone) : Prop :=
  p.value.data.length = 10 ∧ p.value.data.all Char.isDigit = true

instance (p : Phone) : Decidable (validPhone p) := by
  unfold validPhone; infer_instance

/-! Concrete fixtures used by witnesses and counterexamples. -/

/-- A record with birthday 15.03.1990 (a Friday when projected to 2024). -/
def aliceRecord : Record := ⟨⟨"Alice"⟩, [], some ⟨"15.03.1990"⟩⟩

/-- A one-record book holding `aliceRecord`. -/
def aliceBook : AddressBook := ⟨[("Alice", aliceRecord)]⟩

/-- A record with birthday 16.03.1990 (a Saturday when projected to 2024). -/
def satRecord : Record := ⟨⟨"B"⟩, [], some ⟨"16.03.1990"⟩⟩

/-- A one-record book holding `satRecord`. -/
def satBook : AddressBook := ⟨[("B", satRecord)]⟩

/-- A record with birthday 29.02.2020 (February 29). -/
def feb29Record : Record := ⟨⟨"Leap"⟩, [], some ⟨"29.02.2020"⟩⟩

/-- A record with two valid phones, used to exercise phone editing. -/
def bobRecord : Record := ⟨⟨"Bob"⟩, [⟨"1112223334"⟩, ⟨"5556667778"⟩], none⟩

end AB

namespace AB

/-! Supporting lemmas. -/

/-- The state-passing loop never changes the book it threads. -/
theorem gubLoop_fst (today endDay : Date) (book : AddressBook)
    (l : List (String × Record)) :
    ∀ acc, (gubLoop today endDay book l acc).1 = book := by
  induction l with
  | nil => intro acc; rfl
  | cons item rest ih =>
    intro acc
    simp only [gubLoop]
    cases get_congrats_date item.2 today with
    | none => exact ih acc
    | some c =>
      by_cases hc : (Date.ble today c && Date.ble c endDay) = true
      · simp only [hc, if_true]
        exact ih _
      · simp only [if_neg hc]
        exact ih acc

/-- The state-passing loop accumulates exactly the filtered entries. -/
theorem gubLoop_snd (today endDay : Date) (book : AddressBook)
    (l : List (String × Record)) :
    ∀ acc, (gubLoop today endDay book l acc).2 =
      acc ++ l.filterMap (fun item =>
        match get_congrats_date item.2 today with
        | none => none
        | some congrats =>
          if Date.ble today congrats && Date.ble congrats endDay then
            some ⟨item.2.name.value, formatDMY congrats⟩
          else none) := by
  induction l with
  | nil => intro acc; simp [gubLoop]
  | cons item rest ih =>
    intro acc
    simp only [gubLoop, List.filterMap_cons]
    cases h : get_congrats_date item.2 today with
    | none =>
      simp only [h]
      exact ih acc
    | some c =>
      simp only [h]
      by_cases hc : (Date.ble today c && Date.ble c endDay) = true
      · rw [if_pos hc, if_pos hc, ih]
        simp
      · rw [if_neg hc, if_neg hc]
        exact ih acc

/-- The state-passing embedding returns the unchanged book paired with the
result of the pure embedding. -/
theorem get_upcoming_birthdays_run_eq (book : AddressBook) (today : Date) :
    get_upcoming_birthdays_run book today = (book, get_upcoming_birthdays book today) := by
  simp only [get_upcoming_birthdays_run, get_upcoming_birthdays]
  refine Prod.ext ?_ ?_
  · exact gubLoop_fst _ _ _ _ []
  · rw [gubLoop_snd _ _ _ _ [], List.nil_append, List.filterMap_map]
    rfl

/-- C1 counterexample: `get_upcoming_birthdays` has no `today` parameter; the
only date it uses is the one it reads internally from `date.today()`
(the `todayClock` argument of the embedding). For a fixed book, two runs at
different ambient clock readings return different lists, so the result is
not independent of the ambient clock. -/
theorem c1_clock_dependent :
    get_upcoming_birthdays aliceBook ⟨2024, 3, 10⟩ ≠
      get_upcoming_birthdays aliceBook ⟨2024, 4, 10⟩ := by decide

/-- C1 (amended): `get_upcoming_birthdays` reads "today" internally from the
system clock rather than taking it as a parameter; for a fixed `AddressBook`
state and a fixed clock reading, the result is fully determined by them —
two runs with the same book and the same clock reading return the same
list. -/
theorem c1_deterministic_for_fixed_clock (b1 b2 : AddressBook) (d1 d2 : Date)
    (hb : b1 = b2) (hd : d1 = d2) :
    get_upcoming_birthdays b1 d1 = get_upcoming_birthdays b2 d2 := by
  rw [hb, hd]

/-- C1 witness: the amended determinism theorem applied at a concrete book
and clock reading. -/
theorem c1_deterministic_witness :
    get_upcoming_birthdays aliceBook ⟨2024, 3, 10⟩ =
      get_upcoming_birthdays aliceBook ⟨2024, 3, 10⟩ :=
  c1_deterministic_for_fixed_clock aliceBook aliceBook ⟨2024, 3, 10⟩ ⟨2024, 3, 10⟩ rfl rfl

/-- C2: contrary to the claim (and to the `Name` docstring "Name must not be
empty"), `Record("")` succeeds: `Name` adds no validation to `Field`, so the
record is constructed with an empty name, an empty phone list and no
birthday — no `ValidationError` is possible. -/
theorem c2_empty_name_accepted :
    Record.init "" = ⟨⟨""⟩, [], none⟩ ∧ (Record.init "").name.value = "" := ⟨rfl, rfl⟩

/-- C9: the non-zero-padded string "5.3.1990" is accepted by the `Birthday`
constructor (strptime's `%d` and `%m` also match single digits), and the
stored textual value is the original non-padded string. -/
theorem c9_nonpadded_birthday_accepted :
    Birthday.init "5.3.1990" = .ok ⟨"5.3.1990"⟩ ∧
      (Birthday.init "5.3.1990").map Birthday.value = .ok "5.3.1990" := by
  constructor <;> rfl

/-- C10: `get_upcoming_birthdays` is read-only: for every book state and
clock reading, the book after the call is the initial book, so the
name-to-record mapping (and with it every record's phone list and birthday)
is unchanged. -/
theorem c10_get_upcoming_birthdays_read_only (book : AddressBook) (today : Date) :
    (get_upcoming_birthdays_run book today).1 = book ∧
      ∀ name, AddressBook.find (get_upcoming_birthdays_run book today).1 name =
        AddressBook.find book name := by
  have h : (get_upcoming_birthdays_run book today).1 = book := gubLoop_fst _ _ _ _ []
  exact ⟨h, fun name => by rw [h]⟩

/-- C5: `Phone` construction succeeds (storing the given string) exactly on
strings of 10 digit characters, and fails with the validation `ValueError`
on every other string. -/
theorem c5_phone_validation (s : String) :
    (s.data.length = 10 ∧ s.data.all Char.isDigit = true → Phone.init s = .ok ⟨s⟩) ∧
    (¬(s.data.length = 10 ∧ s.data.all Char.isDigit = true) →
      Phone.init s = .error (.valueError "Phone number must contain exactly 10 digits.")) := by
  by_cases hc : ((!s.data.isEmpty && s.data.all Char.isDigit) && s.data.length == 10) = true
  · have hp : s.data.length = 10 ∧ s.data.all Char.isDigit = true := by
      simp only [Bool.and_eq_true, beq_iff_eq] at hc
      exact ⟨hc.2, hc.1.2⟩
    exact ⟨fun _ => by unfold Phone.init; rw [if_pos hc], fun hn => absurd hp hn⟩
  · have hp : ¬(s.data.length = 10 ∧ s.data.all Char.isDigit = true) := by
      rintro ⟨h1, h2⟩
      apply hc
      have hne : s.data.isEmpty = false := by
        cases hd : s.data with
        | nil => rw [hd] at h1; simp at h1
        | cons a l => rfl
      simp [hne, h2, h1]
    exact ⟨fun hcon => absurd hcon hp, fun _ => by unfold Phone.init; rw [if_neg hc]⟩

/-- C5 witness: the validation theorem applied at a conforming and at a
non-conforming concrete string. -/
theorem c5_phone_validation_witness :
    Phone.init "0123456789" = .ok ⟨"0123456789"⟩ ∧
      Phone.init "12345" =
        .error (.valueError "Phone number must contain exactly 10 digits.") :=
  ⟨(c5_phone_validation "0123456789").1 (by decide),
   (c5_phone_validation "12345").2 (by decide)⟩

/-- C4: for a record whose birthday is February 29, `get_congrats_date`
skips the record (returns `none`, no fallback date) when today's year is not
a leap year; and when today's year is a leap year but the February 29
candidate has already passed and next year is not a leap year, it is
likewise skipped. -/
theorem c4_feb29_skipped (rec : Record) (today : Date) (b : Birthday)
    (hb : rec.birthday = some b) (hm : b.to_date.month = 2) (hd : b.to_date.day = 29) :
    (isLeap today.year = false → get_congrats_date rec today = none) ∧
    (1 ≤ today.year → today.year ≤ 9999 → isLeap today.year = true →
      Date.blt ⟨today.year, 2, 29⟩ today = true → isLeap (today.year + 1) = false →
      get_congrats_date rec today = none) := by
  constructor
  · intro hl
    have hry : (b.to_date).replaceYear today.year = none := by
      unfold Date.replaceYear
      rw [hm, hd, if_neg]
      simp [daysInMonth, hl]
    simp [get_congrats_date, hb, hry]
  · intro h1 h2 hl hblt hl2
    have hry : (b.to_date).replaceYear today.year = some ⟨today.year, 2, 29⟩ := by
      unfold Date.replaceYear
      rw [hm, hd, if_pos]
      simp [daysInMonth, hl, h1, h2]
    have hry2 : (b.to_date).replaceYear (today.year + 1) = none := by
      unfold Date.replaceYear
      rw [hm, hd, if_neg]
      simp [daysInMonth, hl2]
    simp [get_congrats_date, hb, hry, hry2, hblt]

/-- C4 witness: the record with birthday 29.02.2020 is skipped both when
today is 01.03.2023 (2023 is not a leap year) and when today is 01.03.2024
(the 2024 candidate has passed and 2025 is not a leap year). -/
theorem c4_feb29_witness :
    get_congrats_date feb29Record ⟨2023, 3, 1⟩ = none ∧
      get_congrats_date feb29Record ⟨2024, 3, 1⟩ = none :=
  ⟨(c4_feb29_skipped feb29Record ⟨2023, 3, 1⟩ ⟨"29.02.2020"⟩ rfl (by decide) (by decide)).1
      (by decide),
   (c4_feb29_skipped feb29Record ⟨2024, 3, 1⟩ ⟨"29.02.2020"⟩ rfl (by decide) (by decide)).2
      (by decide) (by decide) (by decide) (by decide) (by decide)⟩

/-- When `find?` succeeds on the phone list, `findIdx` with the same
predicate points at the first value match: the element there matches and no
earlier element does. -/
theorem findIdx_first_match (old : String) :
    ∀ (ps : List Phone) (p : Phone),
      ps.find? (fun q => q.value == old) = some p →
      ∃ pi, ps[ps.findIdx (fun q => q.value == old)]? = some pi ∧ pi.value = old ∧
        ∀ j pj, j < ps.findIdx (fun q => q.value == old) → ps[j]? = some pj →
          pj.value ≠ old := by
  intro ps
  induction ps with
  | nil => intro p hp; simp [List.find?] at hp
  | cons a l ih =>
    intro p hp
    by_cases ha : (a.value == old) = true
    · refine ⟨a, ?_, eq_of_beq ha, ?_⟩
      · simp [List.findIdx_cons, ha]
      · intro j pj hj _
        simp [List.findIdx_cons, ha] at hj
    · have hp' : l.find? (fun q => q.value == old) = some p := by
        rw [List.find?_cons] at hp
        simpa [ha] using hp
      obtain ⟨pi, h1, h2, h3⟩ := ih p hp'
      have hidx : (a :: l).findIdx (fun q => q.value == old) =
          l.findIdx (fun q => q.value == old) + 1 := by
        simp [List.findIdx_cons, ha]
      refine ⟨pi, ?_, h2, ?_⟩
      · rw [hidx]
        simpa using h1
      · intro j pj hj hg
        rw [hidx] at hj
        cases j with
        | zero =>
          simp at hg
          rw [← hg]
          intro hcon
          exact ha (beq_iff_eq.mpr hcon)
        | succ j' =>
          refine h3 j' pj (by omega) ?_
          simpa using hg

/-- C6: `edit_phone` with an absent `old_phone` fails with the not-found
`ValueError` and leaves the record (hence its phone list) unchanged; with
`old_phone` present and a new value accepted by the `Phone` constructor, it
replaces the first value match in place (same index), leaving all other
positions untouched. -/
theorem c6_edit_phone (r : Record) (old_phone new_phone : String) :
    (Record.find_phone r old_phone = none →
      Record.edit_phone r old_phone new_phone =
        (r, some (.valueError "Old phone number not found."))) ∧
    (∀ np, Phone.init new_phone = .ok np →
      ∀ p, Record.find_phone r old_phone = some p →
        ∃ i pi, r.phones[i]? = some pi ∧ pi.value = old_phone ∧
          (∀ j pj, j < i → r.phones[j]? = some pj → pj.value ≠ old_phone) ∧
          Record.edit_phone r old_phone new_phone =
            ({ r with phones := r.phones.set i np }, none)) := by
  constructor
  · intro h
    unfold Record.edit_phone
    rw [h]
  · intro np hnp p hp
    obtain ⟨pi, h1, h2, h3⟩ :=
      findIdx_first_match old_phone r.phones p (by simpa [Record.find_phone] using hp)
    refine ⟨r.phones.findIdx (fun q => q.value == old_phone), pi, h1, h2, h3, ?_⟩
    unfold Record.edit_phone
    rw [hp, hnp]

/-- C6 witness: editing a missing number on `bobRecord` fails with the
not-found error; editing the second stored number replaces it at index 1. -/
theorem c6_edit_phone_witness :
    Record.edit_phone bobRecord "9999999999" "0123456789" =
      (bobRecord, some (.valueError "Old phone number not found.")) ∧
    ∃ i pi, bobRecord.phones[i]? = some pi ∧ pi.value = "5556667778" ∧
      (∀ j pj, j < i → bobRecord.phones[j]? = some pj → pj.value ≠ "5556667778") ∧
      Record.edit_phone bobRecord "5556667778" "0123456789" =
        ({ bobRecord with phones := bobRecord.phones.set i ⟨"0123456789"⟩ }, none) :=
  ⟨(c6_edit_phone bobRecord "9999999999" "0123456789").1 (by decide),
   (c6_edit_phone bobRecord "5556667778" "0123456789").2 ⟨"0123456789"⟩ rfl
     ⟨"5556667778"⟩ (by decide)⟩

/-- A phone accepted by the `Phone` constructor satisfies the 10-digit
invariant. -/
theorem phone_init_valid (s : String) (p : Phone) (h : Phone.init s = .ok p) :
    validPhone p := by
  unfold Phone.init at h
  by_cases hc : ((!s.data.isEmpty && s.data.all Char.isDigit) && s.data.length == 10) = true
  · rw [if_pos hc] at h
    cases h
    simp only [Bool.and_eq_true, beq_iff_eq] at hc
    exact ⟨hc.2, hc.1.2⟩
  · rw [if_neg hc] at h
    cases h

/-- Removing the first match keeps only elements of the original list. -/
theorem mem_removeFirstPhone (s : String) :
    ∀ (ps : List Phone) (p : Phone), p ∈ removeFirstPhone ps s → p ∈ ps := by
  intro ps
  induction ps with
  | nil => intro p h; simp [removeFirstPhone] at h
  | cons a l ih =>
    intro p h
    rw [removeFirstPhone] at h
    by_cases ha : (a.value == s) = true
    · rw [if_pos ha] at h
      exact List.mem_cons_of_mem a h
    · rw [if_neg ha] at h
      rcases List.mem_cons.mp h with h1 | h2
      · exact h1 ▸ List.mem_cons_self a l
      · exact List.mem_cons_of_mem a (ih p h2)

/-- C8: if every phone of a record is a 10-digit value, then after
`add_phone`, `edit_phone` or `remove_phone` (whether they succeed or fail)
every phone of the record is still a 10-digit value: the only ways to insert
or replace a phone construct a validated `Phone` first. -/
theorem c8_phones_invariant (r : Record) (s t : String)
    (h : ∀ p ∈ r.phones, validPhone p) :
    (∀ p ∈ (Record.add_phone r s).1.phones, validPhone p) ∧
    (∀ p ∈ (Record.edit_phone r s t).1.phones, validPhone p) ∧
    (∀ p ∈ (Record.remove_phone r s).phones, validPhone p) := by
  refine ⟨?_, ?_, ?_⟩
  · intro p hp
    unfold Record.add_phone at hp
    cases hi : Phone.init s with
    | error e => simp only [hi] at hp; exact h p hp
    | ok q =>
      simp only [hi] at hp
      simp at hp
      rcases hp with hp | hp
      · exact h p hp
      · exact hp ▸ phone_init_valid s q hi
  · intro p hp
    unfold Record.edit_phone at hp
    cases hf : Record.find_phone r s with
    | none => simp only [hf] at hp; exact h p hp
    | some q =>
      simp only [hf] at hp
      cases hi : Phone.init t with
      | error e => simp only [hi] at hp; exact h p hp
      | ok np =>
        simp only [hi] at hp
        rcases List.mem_or_eq_of_mem_set hp with h1 | h2
        · exact h p h1
        · exact h2 ▸ phone_init_valid t np hi
  · intro p hp
    unfold Record.remove_phone at hp
    exact h p (mem_removeFirstPhone s r.phones p hp)

/-- C8 witness: the invariant theorem applied to `bobRecord` (whose two
phones are 10-digit values) with a valid added number and an edit. -/
theorem c8_phones_invariant_witness :
    (∀ p ∈ (Record.add_phone bobRecord "1112223334").1.phones, validPhone p) ∧
    (∀ p ∈ (Record.edit_phone bobRecord "1112223334" "0123456789").1.phones, validPhone p) ∧
    (∀ p ∈ (Record.remove_phone bobRecord "1112223334").phones, validPhone p) :=
  c8_phones_invariant bobRecord "1112223334" "0123456789" (by decide)

/-- The rendered digit of `n < 10` is a digit character. -/
theorem digitChar_isDigit (n : Nat) (h : n < 10) : (digitChar n).isDigit = true := by
  interval_cases n <;> decide

/-- The code of the rendered digit of `n < 10`. -/
theorem digitChar_toNat (n : Nat) (h : n < 10) : (digitChar n).toNat = 48 + n := by
  interval_cases n <;> decide

/-- Width-2 zero-padded renderings consist of digit characters. -/
theorem pad2_all_digits (n : Nat) (h : n ≤ 99) : (pad2 n).all Char.isDigit = true := by
  have ha := digitChar_isDigit (n / 10) (by omega)
  have hb := digitChar_isDigit (n % 10) (by omega)
  simp [pad2, ha, hb]

/-- Width-4 zero-padded renderings consist of digit characters. -/
theorem pad4_all_digits (n : Nat) (h : n ≤ 9999) : (pad4 n).all Char.isDigit = true := by
  have ha := digitChar_isDigit (n / 1000) (by omega)
  have hb := digitChar_isDigit (n / 100 % 10) (by omega)
  have hc := digitChar_isDigit (n / 10 % 10) (by omega)
  have hd := digitChar_isDigit (n % 10) (by omega)
  simp [pad4, ha, hb, hc, hd]

/-- Parsing back a width-2 zero-padded rendering gives the value. -/
theorem digitsVal_pad2 (n : Nat) (h : n ≤ 99) : digitsVal (pad2 n) = n := by
  have ha := digitChar_toNat (n / 10) (by omega)
  have hb := digitChar_toNat (n % 10) (by omega)
  simp [digitsVal, pad2, ha, hb]
  omega

/-- Parsing back a width-4 zero-padded rendering gives the value. -/
theorem digitsVal_pad4 (n : Nat) (h : n ≤ 9999) : digitsVal (pad4 n) = n := by
  have ha := digitChar_toNat (n / 1000) (by omega)
  have hb := digitChar_toNat (n / 100 % 10) (by omega)
  have hc := digitChar_toNat (n / 10 % 10) (by omega)
  have hd := digitChar_toNat (n % 10) (by omega)
  simp [digitsVal, pad4, ha, hb, hc, hd]
  omega

/-- `splitDigits` consumes exactly a digit run that ends at a non-digit. -/
theorem splitDigits_append :
    ∀ (ds : List Char) (c : Char) (rest : List Char), ds.all Char.isDigit = true →
      c.isDigit = false → splitDigits (ds ++ c :: rest) = (ds, c :: rest) := by
  intro ds
  induction ds with
  | nil => intro c rest _ hc; simp [splitDigits, hc]
  | cons a l ih =>
    intro c rest hd hc
    simp only [List.all_cons, Bool.and_eq_true] at hd
    simp only [List.cons_append, splitDigits, hd.1, if_true]
    rw [List.append_eq, ih c rest hd.2 hc]

/-- `splitDigits` consumes an all-digit list whole. -/
theorem splitDigits_all :
    ∀ ds : List Char, ds.all Char.isDigit = true → splitDigits ds = (ds, []) := by
  intro ds
  induction ds with
  | nil => intro _; rfl
  | cons a l ih =>
    intro hd
    simp only [List.all_cons, Bool.and_eq_true] at hd
    simp only [splitDigits, hd.1, if_true, ih hd.2]

/-- lengths of the zero-padded renderings. -/
theorem pad2_length (n : Nat) : (pad2 n).length = 2 := rfl

/-- lengths of the zero-padded renderings. -/
theorem pad4_length (n : Nat) : (pad4 n).length = 4 := rfl

/-- No month has more than 31 days. -/
theorem daysInMonth_le31 (y m : Nat) : daysInMonth y m ≤ 31 := by
  unfold daysInMonth
  split
  · split <;> omega
  · split <;> omega

/-- `strptime("%d.%m.%Y")` accepts the strict zero-padded rendering of every
real calendar date and returns that date. -/
theorem parseDMY_format (y m d : Nat) (hv : validDate y m d) :
    parseDMY (pad2 d ++ '.' :: (pad2 m ++ '.' :: pad4 y)) = some ⟨y, m, d⟩ := by
  obtain ⟨h1, h2, h3, h4, h5, h6⟩ := hv
  have hd31 : d ≤ 31 := le_trans h6 (daysInMonth_le31 y m)
  have s1 : splitDigits (pad2 d ++ '.' :: (pad2 m ++ '.' :: pad4 y)) =
      (pad2 d, '.' :: (pad2 m ++ '.' :: pad4 y)) :=
    splitDigits_append _ _ _ (pad2_all_digits d (by omega)) (by decide)
  have s2 : splitDigits (pad2 m ++ '.' :: pad4 y) = (pad2 m, '.' :: pad4 y) :=
    splitDigits_append _ _ _ (pad2_all_digits m (by omega)) (by decide)
  have s3 : splitDigits (pad4 y) = (pad4 y, []) :=
    splitDigits_all _ (pad4_all_digits y (by omega))
  simp only [parseDMY, s1, s2, s3]
  simp [digitsVal_pad2 d (by omega), digitsVal_pad2 m (by omega), digitsVal_pad4 y (by omega),
    pad2_length, pad4_length, h1, h3, h4, h5, h6, hd31]

/-- C7: for every real calendar date, the strict zero-padded DD.MM.YYYY
rendering is accepted by the `Birthday` constructor (which stores it
verbatim), and rendering the parsed date back with `strftime("%d.%m.%Y")`
reproduces the same string. -/
theorem c7_birthday_roundtrip (y m d : Nat) (hv : validDate y m d) :
    Birthday.init (String.mk (pad2 d ++ '.' :: (pad2 m ++ '.' :: pad4 y))) =
      .ok ⟨String.mk (pad2 d ++ '.' :: (pad2 m ++ '.' :: pad4 y))⟩ ∧
    formatDMY (Birthday.to_date ⟨String.mk (pad2 d ++ '.' :: (pad2 m ++ '.' :: pad4 y))⟩) =
      String.mk (pad2 d ++ '.' :: (pad2 m ++ '.' :: pad4 y)) := by
  have hp := parseDMY_format y m d hv
  constructor
  · unfold Birthday.init
    simp only [hp]
  · unfold Birthday.to_date
    simp only [hp]
    rfl

/-- C7 witness: the round-trip theorem applied at 16.03.1990. -/
theorem c7_birthday_roundtrip_witness :
    validDate 1990 3 16 ∧
      (Birthday.init (String.mk (pad2 16 ++ '.' :: (pad2 3 ++ '.' :: pad4 1990))) =
        .ok ⟨String.mk (pad2 16 ++ '.' :: (pad2 3 ++ '.' :: pad4 1990))⟩ ∧
      formatDMY (Birthday.to_date ⟨String.mk (pad2 16 ++ '.' :: (pad2 3 ++ '.' :: pad4 1990))⟩) =
        String.mk (pad2 16 ++ '.' :: (pad2 3 ++ '.' :: pad4 1990))) :=
  ⟨by decide, c7_birthday_roundtrip 1990 3 16 (by decide)⟩

/-- C3: an entry appears in `get_upcoming_birthdays` only if some record of
the book has a congratulation date (already weekend-shifted) lying within
the inclusive window from today to today plus 7 days, and the entry renders
that date; moreover, in the concrete scenario of the spec, the birthday
16.03.1990 with today = 10.03.2024 gets congratulation date 18.03.2024
(Saturday 16.03.2024 shifted to Monday), which is outside the window, so the
record is excluded and the result is empty. -/
theorem c3_shifted_window_filter :
    (∀ (book : AddressBook) (today : Date) (e : Entry),
      e ∈ get_upcoming_birthdays book today →
      ∃ rec, rec ∈ book.data.map Prod.snd ∧ ∃ c, get_congrats_date rec today = some c ∧
        Date.ble today c = true ∧ Date.ble c (today.addDays 7) = true ∧
        e = ⟨rec.name.value, formatDMY c⟩) ∧
    get_congrats_date satRecord ⟨2024, 3, 10⟩ = some ⟨2024, 3, 18⟩ ∧
    get_upcoming_birthdays satBook ⟨2024, 3, 10⟩ = [] := by
  refine ⟨?_, by decide, by decide⟩
  intro book today e he
  unfold get_upcoming_birthdays at he
  rw [List.mem_filterMap] at he
  obtain ⟨rec, hmem, hf⟩ := he
  refine ⟨rec, hmem, ?_⟩
  cases hg : get_congrats_date rec today with
  | none => simp [hg] at hf
  | some c =>
    simp only [hg] at hf
    by_cases hc : (Date.ble today c && Date.ble c (today.addDays 7)) = true
    · rw [if_pos hc] at hf
      injection hf with hf
      simp only [Bool.and_eq_true] at hc
      exact ⟨c, rfl, hc.1, hc.2, hf.symm⟩
    · rw [if_neg hc] at hf
      simp at hf

/-- C3 witness: the window property applied to the membership of Alice's
entry (birthday 15.03.1990, today = 10.03.2024, a Friday in the window). -/
theorem c3_shifted_window_filter_witness :
    ∃ rec, rec ∈ aliceBook.data.map Prod.snd ∧ ∃ c,
      get_congrats_date rec ⟨2024, 3, 10⟩ = some c ∧
      Date.ble ⟨2024, 3, 10⟩ c = true ∧ Date.ble c (Date.addDays ⟨2024, 3, 10⟩ 7) = true ∧
      (⟨"Alice", "15.03.2024"⟩ : Entry) = ⟨rec.name.value, formatDMY c⟩ :=
  (c3_shifted_window_filter).1 aliceBook ⟨2024, 3, 10⟩ ⟨"Alice", "15.03.2024"⟩ (by decide)

end AB

